import Mathlib

/-!
Verification of the qoar QOA (Quite OK Audio) codec core.

This file gives a shallow embedding of the codec's arithmetic primitives,
LMS predictor, slice scaler, wire-format packing and decoder control flow,
translated from the Rust sources (src/lib.rs, src/encoder.rs,
src/encoder/slice_scaler.rs, src/decoder.rs, src/simd.rs), and proves or
refutes the specified properties.

Machine-integer conventions of the embedding:
- signed 32-bit / 16-bit values are Lean `Int`s; a two's-complement
  wrapping cast is `wrap32` / `wrap16` (release-mode Rust overflow
  semantics);
- an arithmetic right shift of a signed value is floor division by a
  power of two (`sar`);
- unsigned 64-bit words are `Nat`s, with an explicit `% 2 ^ 64` exactly
  where the Rust code can overflow a `u64`.
-/

/-- Two's-complement wrap of an integer into the signed 32-bit range,
the effect of release-mode `i32` overflow and of an `as i32` cast. -/
def wrap32 (x : Int) : Int := (x + 2 ^ 31) % 2 ^ 32 - 2 ^ 31

/-- Two's-complement wrap into the signed 16-bit range (`as i16` cast). -/
def wrap16 (x : Int) : Int := (x + 2 ^ 15) % 2 ^ 16 - 2 ^ 15

/-- Arithmetic right shift of a signed value: floor division by `2 ^ n`. -/
def sar (x : Int) (n : Nat) : Int := Int.fdiv x (2 ^ n)

/-- Sign function written as in the Rust source:
`(x > 0) as i32 - (x < 0) as i32`. -/
def isign (x : Int) : Int := (if 0 < x then 1 else 0) - (if x < 0 then 1 else 0)

/-- Rust `v.clamp(lo, hi)` on integers (for `lo ≤ hi`). -/
def iclamp (v lo hi : Int) : Int := max lo (min v hi)

/-- Rust `(start..stop).step_by(step)` as the list of visited indices
(for `step > 0`): `start, start + step, ...` strictly below `stop`. -/
def stepRange (start stop step : Nat) : List Nat :=
  (List.range ((stop - start + step - 1) / step)).map (fun t => start + t * step)

/-- Samples per slice (`SLICE_LEN`, src/lib.rs:260). -/
def SLICE_LEN : Nat := 20

/-- Samples per frame and channel (`FRAME_LEN`, src/lib.rs:261). -/
def FRAME_LEN : Nat := SLICE_LEN * 256

/-- Quantization table (`QUANT_TABLE`, src/lib.rs:263). -/
def QUANT_TABLE : List Nat :=
  [7, 7, 7, 5, 5, 3, 3, 1, 0, 0, 2, 2, 4, 4, 6, 6, 6]

/-- Scale factor table (`SF_TABLE`, src/lib.rs:269). -/
def SF_TABLE : List Int :=
  [1, 7, 21, 45, 84, 138, 211, 304, 421, 562, 731, 928, 1157, 1419, 1715, 2048]

/-- Fixed-point reciprocal table (`RECIP_TABLE`, src/lib.rs:273). -/
def RECIP_TABLE : List Int :=
  [65536, 9363, 3121, 1457, 781, 475, 311, 216, 156, 117, 90, 71, 57, 47, 39, 32]

/-- Dequantization table (`DEQUANT_TABLE`, src/lib.rs:277). -/
def DEQUANT_TABLE : List (List Int) :=
  [[   1,    -1,    3,    -3,    5,    -5,     7,     -7],
   [   5,    -5,   18,   -18,   32,   -32,    49,    -49],
   [  16,   -16,   53,   -53,   95,   -95,   147,   -147],
   [  34,   -34,  113,  -113,  203,  -203,   315,   -315],
   [  63,   -63,  210,  -210,  378,  -378,   588,   -588],
   [ 104,  -104,  345,  -345,  621,  -621,   966,   -966],
   [ 158,  -158,  528,  -528,  950,  -950,  1477,  -1477],
   [ 228,  -228,  760,  -760, 1368, -1368,  2128,  -2128],
   [ 316,  -316, 1053, -1053, 1895, -1895,  2947,  -2947],
   [ 422,  -422, 1405, -1405, 2529, -2529,  3934,  -3934],
   [ 548,  -548, 1828, -1828, 3290, -3290,  5117,  -5117],
   [ 696,  -696, 2320, -2320, 4176, -4176,  6496,  -6496],
   [ 868,  -868, 2893, -2893, 5207, -5207,  8099,  -8099],
   [1064, -1064, 3548, -3548, 6386, -6386,  9933,  -9933],
   [1286, -1286, 4288, -4288, 7718, -7718, 12005, -12005],
   [1536, -1536, 5120, -5120, 9216, -9216, 14336, -14336]]

/-- Per-channel LMS predictor state (`QoaLmsState`). History and weight
lanes are the signed 32-bit values of the codec, as `Int` lists of
length 4. -/
structure QoaLmsState where
  history : List Int
  weights : List Int
deriving DecidableEq, Repr

/-- Default LMS state (`impl Default for QoaLmsState`, src/lib.rs:390):
`history = [0,0,0,0]`, `weights = [0, 0, -(1 << 13), 1 << 14]`. -/
def lmsDefault : QoaLmsState := ⟨[0, 0, 0, 0], [0, 0, -8192, 16384]⟩

/-- LMS prediction (`LmsState::predict`, src/simd.rs:85, and spec
section 4.2's 64-bit mandate): the dot product of history and weights,
accumulated in 64-bit, shifted right by 13 and narrowed to `i32`. The
older scalar fold (src/lib.rs:353) accumulates in `i32` and can wrap
mid-sum at extreme lane values; no theorem below exercises that regime. -/
def predict (s : QoaLmsState) : Int :=
  wrap32 (sar ((s.history.zip s.weights).foldl (fun p hw => p + hw.1 * hw.2) 0) 13)

/-- LMS update with 32-bit lanes (`LmsState::update`, src/simd.rs:89):
each weight lane moves by `residual >> 4`, signed by the pre-shift
history lane — the addition wrapping as `i32` — then the history
rotates left by one and the new sample is written at index 3. -/
def update (s : QoaLmsState) (sample residual : Int) : QoaLmsState :=
  let delta := sar residual 4
  { history := (s.history.rotateLeft 1).set 3 sample
    weights := (s.history.zip s.weights).map
      (fun hw => wrap32 (hw.2 + (if hw.1 < 0 then -delta else delta))) }

/-- LMS update with 16-bit lanes (`QoaLmsState::update`,
src/lib.rs:361, whose state holds `[i16; 4]` arrays): the delta is
first truncated by the `(residual >> 4) as i16` cast and the weight
additions wrap as `i16`; the history/sign-check structure is the same
as in `update`. -/
def lib_update (s : QoaLmsState) (sample residual : Int) : QoaLmsState :=
  let delta := wrap16 (sar residual 4)
  { history := (s.history.rotateLeft 1).set 3 sample
    weights := (s.history.zip s.weights).map
      (fun hw => wrap16 (hw.2 + (if hw.1 < 0 then -delta else delta))) }

/-- Scalar rounding divide (`div`, src/lib.rs:399). All intermediates
are 32-bit: `v * recip` and the subsequent addition wrap as `i32`
before the arithmetic shift. -/
def div (v : Int) (sf : Nat) : Int :=
  let recip := RECIP_TABLE.getD sf 0
  let n := sar (wrap32 (wrap32 (v * recip) + 32768)) 16
  n + (isign v - isign n)

/-- Vector rounding divide, one lane (`div`, src/simd.rs:50): the
product and addition are done in 64-bit (`i64`) exactly, the shifted
result is cast back to `i32`. -/
def vec_div (v : Int) (sf : Nat) : Int :=
  let recip := RECIP_TABLE.getD sf 0
  let n := wrap32 (sar (v * recip + 32768) 16)
  n + (isign v - isign n)

/-- Per-sample scaling step (`LinearScaler::scale_sample`,
src/encoder/slice_scaler.rs:29; the same statement sequence is inlined
in `enc_slice`, src/encoder.rs:311-327, and in `enc_frame`,
src/lib.rs:441-457): predict, take the residual, divide by the scale
factor, clamp to [-8, 8], quantize, dequantize, reconstruct with
saturation to the signed 16-bit range, and update the LMS clone.
Returns `((quantized, dequantized, reconst), updated lms)`. -/
def scale_sample (sample : Int) (sf : Nat) (lms : QoaLmsState) :
    (Nat × Int × Int) × QoaLmsState :=
  let predicted := predict lms
  let residual := wrap32 (sample - predicted)
  let scaled := div residual sf
  let clamped := iclamp scaled (-8) 8
  let quantized := QUANT_TABLE.getD (clamped + 8).toNat 0
  let dequantized := (DEQUANT_TABLE.getD sf []).getD quantized 0
  let reconst := iclamp (wrap32 (predicted + dequantized)) (-32768) 32767
  ((quantized, dequantized, reconst), update lms reconst dequantized)

/-- Strided index range of `enc_slice` (src/encoder.rs:299):
`rng = 0..len * channel_count + chn`, stepped by `channel_count`.
Note the range starts at 0, not at `chn`. -/
def enc_slice_rng (len cc chn : Nat) : List Nat := stepRange 0 (len * cc + chn) cc

/-- Strided index range of `LinearScaler::scale`
(src/encoder/slice_scaler.rs:46) and of `enc_frame` (src/lib.rs:424-428):
`chn..len * channel_count + chn`, stepped by `channel_count`, selecting
exactly the interleaved samples of channel `chn`. -/
def scale_rng (len cc chn : Nat) : List Nat := stepRange chn (len * cc + chn) cc

/-- One scale-factor candidate of `LinearScaler::scale`
(src/encoder/slice_scaler.rs:47-62): fold `scale_sample` over the
strided window, accumulating the squared error (`u64`), the packed
residual bits and the cloned LMS state. Returns `(error, slice, lms)`. -/
def scaleCandidate (samples : List Int) (idx : List Nat) (lms0 : QoaLmsState)
    (sf : Nat) : Nat × Nat × QoaLmsState :=
  idx.foldl
    (fun st si =>
      let sample := samples.getD si 0
      let r := scale_sample sample sf st.2.2
      let e := sample - r.1.2.2
      (st.1 + (e * e).toNat, st.2.1 <<< 3 ||| r.1.1, r.2))
    (0, sf, lms0)

/-- The linear slice scaler (`LinearScaler::scale`,
src/encoder/slice_scaler.rs:44-67): evaluate all 16 scale-factor
candidates and keep the one of minimal error; Rust's `min_by_key`
returns the first minimum, so ties break toward the lowest scale
factor. The winning candidate's LMS state replaces the caller's, and
the packed word is left-shifted for short slices. -/
def scale (samples : List Int) (lms0 : QoaLmsState) (chn cc : Nat) :
    Nat × QoaLmsState :=
  let len := min SLICE_LEN samples.length
  let idx := scale_rng len cc chn
  let cands := (List.range 16).map (scaleCandidate samples idx lms0)
  let best := match cands with
    | [] => (0, 0, lms0)
    | c :: rest => rest.foldl
        (fun acc c : Nat × Nat × QoaLmsState => if c.1 < acc.1 then c else acc) c
  (best.2.1 <<< ((SLICE_LEN - len) * 3), best.2.2)

/-- Squared reconstruction error contributed by the sample at
interleaved index `si` (`error * error` with
`error = sample as i64 - reconst as i64`, src/encoder.rs:320-321,
src/lib.rs:450-451). -/
def sliceErr (samples : List Int) (si sf : Nat) (lms : QoaLmsState) : Int :=
  (samples.getD si 0 - (scale_sample (samples.getD si 0) sf lms).1.2.2) *
    (samples.getD si 0 - (scale_sample (samples.getD si 0) sf lms).1.2.2)

/-- Inner sample loop of `enc_slice` (src/encoder.rs:310-329) and
`enc_frame` (src/lib.rs:440-459), with the early `break` taken when the
accumulated error exceeds `best_error`; on a break, the pending LMS
update and residual bits of the breaking sample are discarded. The
state is `(cur_err, slice, lms)`. -/
def scaleSearchInner (samples : List Int) (sf : Nat) (best : Int) :
    List Nat → Int × Nat × QoaLmsState → Int × Nat × QoaLmsState
  | [], st => st
  | si :: rest, st =>
    if best < st.1 + sliceErr samples si sf st.2.2 then
      (st.1 + sliceErr samples si sf st.2.2, st.2.1, st.2.2)
    else
      scaleSearchInner samples sf best rest
        (st.1 + sliceErr samples si sf st.2.2,
         st.2.1 <<< 3 ||| (scale_sample (samples.getD si 0) sf st.2.2).1.1,
         (scale_sample (samples.getD si 0) sf st.2.2).2)

/-- Scale-factor search of `enc_slice` (src/encoder.rs:300-336) and
`enc_frame` (src/lib.rs:430-466): `best_error` starts at the signed
64-bit value `-1`, each candidate runs the inner loop against it, and
the candidate is kept only when `cur_err < best_error`. Returns
`(best_error, best_slice, best_lms)`, started at `(-1, 0, default)`. -/
def scaleSearch (samples : List Int) (idx : List Nat) (lms0 : QoaLmsState) :
    Int × Nat × QoaLmsState :=
  (List.range 16).foldl
    (fun acc sf =>
      let r := scaleSearchInner samples sf acc.1 idx (0, sf, lms0)
      if r.1 < acc.1 then r else acc)
    (-1, 0, lmsDefault)

/-- Per-channel body of `enc_slice` (src/encoder.rs:297-340): run the
scale-factor search over the (mis-strided) index range and left-shift
the chosen word for short slices. Returns `(slice word, new lms)`. -/
def enc_slice_channel (samples : List Int) (cc chn : Nat) (lms0 : QoaLmsState) :
    Nat × QoaLmsState :=
  let len := min SLICE_LEN samples.length
  let r := scaleSearch samples (enc_slice_rng len cc chn) lms0
  (r.2.1 <<< ((SLICE_LEN - len) * 3), r.2.2)

/-- Big-endian byte serialization of `v` into `n` bytes
(Rust `to_be_bytes`). -/
def beBytes (v n : Nat) : List Nat :=
  (List.range n).map (fun i => v / 2 ^ (8 * (n - 1 - i)) % 256)

/-- Frame header serialization (`write_frame_header`, src/lib.rs:337):
one channel-count byte, the low 24 bits of the sample rate, the 16-bit
sample count and the 16-bit size, all big-endian. -/
def write_frame_header (cc rate sc size : Nat) : List Nat :=
  [cc % 256] ++ (beBytes (rate % 2 ^ 32) 4).drop 1 ++
    beBytes (sc % 2 ^ 16) 2 ++ beBytes (size % 2 ^ 16) 2

/-- Rust `cur as u16 & 0xFFFF` on a signed lane value. -/
def u16OfInt (x : Int) : Nat := (x % 65536).toNat

/-- LMS lane packing (`pack` inside `QoaLmsState::enc`, src/lib.rs:376):
fold the four lanes into a 64-bit word, high lane first. -/
def packLanes (lanes : List Int) : Nat :=
  lanes.foldl (fun acc cur => acc <<< 16 ||| u16OfInt cur) 0

/-- LMS state serialization (`QoaLmsState::enc`, src/lib.rs:373): the
packed history word then the packed weights word, 16 bytes in all. -/
def lms_enc_bytes (s : QoaLmsState) : List Nat :=
  beBytes (packLanes s.history) 8 ++ beBytes (packLanes s.weights) 8

/-- Rust `Vec::with_capacity(n)` allocates capacity but the vector's
length is 0: as a list it is empty, whatever `n` is. -/
def vec_with_capacity (_n : Nat) : List QoaLmsState := []

/-- Rust slice `fill`: overwrite every existing element (a no-op on an
empty vector). -/
def list_fill (l : List QoaLmsState) (v : QoaLmsState) : List QoaLmsState :=
  l.map (fun _ => v)

/-- Per-channel LMS vector built by `enc` (src/lib.rs:493-497):
`Vec::with_capacity(channel_count)` followed by
`fill(QoaLmsState::default())`. -/
def enc_lms_init (channel_count : Nat) : List QoaLmsState :=
  list_fill (vec_with_capacity channel_count) lmsDefault

/-- Strided slice range of `enc_frame` (src/lib.rs:424-428):
`sample * cc + chn .. (sample + slice_len) * cc + chn` stepped by `cc`. -/
def lib_slice_rng (sample len cc chn : Nat) : List Nat :=
  stepRange (sample * cc + chn) ((sample + len) * cc + chn) cc

/-- Frame encoder (`enc_frame`, src/lib.rs:407-480) as the emitted byte
list plus the final LMS states: frame header, one serialized LMS state
per entry of `lms_states`, then one slice word per slice row and
channel, each found by the (broken) scale-factor search. The channel
count is `lms_states.len() as u8` and the sample count is
`samples.len() as u16`. -/
def enc_frame (samples : List Int) (rate : Nat) (lms : List QoaLmsState) :
    List Nat × List QoaLmsState :=
  let cc := lms.length
  let sc := samples.length % 2 ^ 16
  let slices := (sc + SLICE_LEN - 1) / SLICE_LEN
  let size := (24 * (cc % 256) + 8 * slices * (cc % 256)) % 2 ^ 16
  let hdr := write_frame_header cc rate sc size
  let lmsBytes := (lms.map lms_enc_bytes).flatten
  (stepRange 0 sc SLICE_LEN).foldl
    (fun st sample =>
      (List.range cc).foldl
        (fun (st : List Nat × List QoaLmsState) chn =>
          let slice_len := min SLICE_LEN (sc - sample)
          let r := scaleSearch samples (lib_slice_rng sample slice_len cc chn)
            (st.2.getD chn lmsDefault)
          (st.1 ++ beBytes (r.2.1 <<< ((SLICE_LEN - slice_len) * 3)) 8,
           st.2.set chn r.2.2))
        st)
    (hdr ++ lmsBytes, lms)

/-- Rust `Vec::with_capacity(n)` for the byte buffer of
`Pcm16Reader::read_frame` (length 0 whatever the capacity). -/
def vec_with_capacity_u8 (_n : Nat) : List Nat := []

/-- Rust `array_windows::<2>`: all overlapping two-byte windows. -/
def array_windows2 : List Nat → List (Nat × Nat)
  | a :: b :: rest => (a, b) :: array_windows2 (b :: rest)
  | _ => []

/-- `Pcm16Reader::read_frame` (src/lib.rs:577-588): allocate a byte
buffer with `Vec::with_capacity(buf.len() * 2)` (so of length 0), read
into it (a `Read` implementation fills at most the buffer's length, so
0 bytes), collect `count / 2` two-byte windows as big-endian `i16`
samples, and `copy_from_slice` them into `buf` — which panics (`none`)
unless the lengths agree. -/
def read_frame (source : List Nat) (bufLen : Nat) : Option (List Int) :=
  let bytes := vec_with_capacity_u8 (bufLen * 2)
  let count := min bytes.length source.length
  let samples := ((array_windows2 bytes).take (count / 2)).map
    (fun p => wrap16 (p.1 * 256 + p.2))
  if samples.length = bufLen then some samples else none

/-- Magic constant (`MAGIC`, src/lib.rs:258): the big-endian bytes of
the string of letters q, o, a, f. -/
def MAGICN : Nat := 0x716f6166

/-- Decoder error taxonomy (`DecodeError`, src/decoder.rs:30). The IO
payloads are dropped; the byte source of the embedding (the word list,
matching the `Buffer` stream of src/io.rs) only ever produces `eof`. -/
inductive DecError where
  | unknownMagic (bytes : List Nat)
  | eof
  | read
  | write
  | sinkClose
deriving DecidableEq, Repr

/-- Word-stream read (`SourceStream::read_long` of the `Buffer`
implementation, src/io.rs:152): pop the front 64-bit word or fail with
end of stream. -/
def read_long : List Nat → Except DecError (Nat × List Nat)
  | [] => .error .eof
  | w :: rest => .ok (w, rest)

/-- File-header decoding (`dec_file_header`, src/decoder.rs:192): read
one word, test the upper 32 bits against the magic, and return the
lower 32 bits as the declared sample count. On failure the error holds
the four magic bytes actually read. -/
def dec_file_header (src : List Nat) : Except DecError (Nat × List Nat) :=
  match read_long src with
  | .error e => .error e
  | .ok (v, rest) =>
    let magic := (v >>> 32) % 2 ^ 32
    if magic ≠ MAGICN then .error (.unknownMagic (beBytes magic 4))
    else .ok (v % 2 ^ 32, rest)

/-- Frame-header decoding (`dec_frame_header`, src/decoder.rs:203):
`(channels, rate, samples, size, rest)`. -/
def dec_frame_header (src : List Nat) :
    Except DecError (Nat × Nat × Nat × Nat × List Nat) :=
  match read_long src with
  | .error e => .error e
  | .ok (v, rest) =>
    .ok ((v >>> 56) % 256, (v >>> 32) &&& 0xFFFFFF,
         (v >>> 16) % 2 ^ 16, v % 2 ^ 16, rest)

/-- Four sign-extended 16-bit lanes peeled from the top of a 64-bit
word, as in the loop of `dec_lms` (src/decoder.rs:216-221): take
`(v >> 48) as i16`, then shift the word left by 16 (wrapping in `u64`)
and repeat. -/
def lanes : Nat → Nat → List Int
  | _, 0 => []
  | v, n + 1 => wrap16 ((v >>> 48) % 2 ^ 16) :: lanes ((v <<< 16) % 2 ^ 64) n

/-- One decoded LMS state from its history and weights words
(`dec_lms`, src/decoder.rs:212). -/
def dec_lms_one (h w : Nat) : QoaLmsState := ⟨lanes h 4, lanes w 4⟩

/-- LMS prelude decoding (`dec_lms`, src/decoder.rs:212): two words per
channel-state slot. -/
def dec_lms : List QoaLmsState → List Nat →
    Except DecError (List QoaLmsState × List Nat)
  | [], src => .ok ([], src)
  | _ :: rest, src =>
    match read_long src with
    | .error e => .error e
    | .ok (h, src1) =>
      match read_long src1 with
      | .error e => .error e
      | .ok (w, src2) =>
        match dec_lms rest src2 with
        | .error e => .error e
        | .ok (tail, src3) => .ok (dec_lms_one h w :: tail, src3)

/-- Rust `Vec::resize_with(n, Default::default)`: truncate or extend
with default states. -/
def resize_with (l : List QoaLmsState) (n : Nat) : List QoaLmsState :=
  l.take n ++ List.replicate (n - l.length) lmsDefault

/-- Slice packing (`QoaSlice::pack`, src/lib.rs:163): the 4-bit `quant`
in bits 63..60 (`(quant as u64) << 60`, wrapping in `u64`), and each
3-bit residual `data[i] & 0b111` at bits `(19 - i) * 3 + 2 .. (19 - i) * 3`. -/
def pack (quant : Nat) (data : List Nat) : Nat :=
  (List.range 20).foldl
    (fun v i => v ||| ((data.getD i 0 &&& 7) <<< ((19 - i) * 3)))
    (((quant % 256) <<< 60) % 2 ^ 64)

/-- Unpacking loop body (`QoaSlice::unpack`, src/decoder.rs:235): for
`i` from 19 down to 0, take the low three bits as `resid[i]` and shift
right; the remaining word, narrowed as `u8`, is `quant`. The
accumulator collects the residuals already extracted, highest index
innermost. -/
def unpackAux : Nat → Nat → List Nat → Nat × List Nat
  | v, 0, acc => (v % 256, acc)
  | v, n + 1, acc => unpackAux (v >>> 3) n ((v &&& 7) :: acc)

/-- Slice unpacking (`QoaSlice::unpack`, src/decoder.rs:235): returns
`(quant, resid)` with twenty residuals. -/
def unpack (v : Nat) : Nat × List Nat := unpackAux v 20 []

/-- Per-sample reconstruction of the stream decoder
(`Decoder::decode_frame`, src/decoder.rs:152-160): predict, look up the
dequantized residual, and narrow `predicted + dequantized` with an
`as i16` cast — a two's-complement wrap, not a clamp — then update the
LMS state. -/
def dec_sample (quant qr : Nat) (lms : QoaLmsState) : Int × QoaLmsState :=
  let predicted := predict lms
  let dequantized := (DEQUANT_TABLE.getD quant []).getD qr 0
  let reconst := wrap16 (wrap32 (predicted + dequantized))
  (reconst, update lms reconst dequantized)

/-- One channel of one slice row (src/decoder.rs:148-164): decode the
first `width` residuals of the slice into the per-channel sample block
written to the sink. -/
def dec_slice_channel (quant : Nat) (resid : List Nat) (width : Nat)
    (lms : QoaLmsState) : List Int × QoaLmsState :=
  (List.range width).foldl
    (fun st si =>
      let r := dec_sample quant (resid.getD si 0) st.2
      (st.1 ++ [r.1], r.2))
    ([], lms)

/-- One slice row across all channels (src/decoder.rs:147-165): per
channel, read one word, unpack it and reconstruct; the LMS list is
walked positionally. Returns the new LMS states, the remaining source
and the per-channel blocks in write order. -/
def dec_row (width : Nat) : List QoaLmsState → List Nat →
    Except DecError (List QoaLmsState × List Nat × List (List Int))
  | [], src => .ok ([], src, [])
  | l :: ls, src =>
    match read_long src with
    | .error e => .error e
    | .ok (w, src1) =>
      let u := unpack w
      let r := dec_slice_channel u.1 u.2 width l
      match dec_row width ls src1 with
      | .error e => .error e
      | .ok (ls2, src2, blocks) => .ok (r.2 :: ls2, src2, r.1 :: blocks)

/-- All slice rows of one frame (src/decoder.rs:145-166): the row at
sample offset `off` decodes `min(SLICE_LEN, f_samples - off)` samples
per channel. -/
def dec_rows (fsamples : Nat) : List Nat → List QoaLmsState → List Nat →
    Except DecError (List QoaLmsState × List Nat × List (List Int))
  | [], lms, src => .ok (lms, src, [])
  | off :: offs, lms, src =>
    match dec_row (min SLICE_LEN (fsamples - off)) lms src with
    | .error e => .error e
    | .ok (lms1, src1, blocks1) =>
      match dec_rows fsamples offs lms1 src1 with
      | .error e => .error e
      | .ok (lms2, src2, blocks2) => .ok (lms2, src2, blocks1 ++ blocks2)

/-- Decoder state (`Decoder`, src/decoder.rs:72): the declared sample
count when in fixed mode (`None` in streaming mode), the
file-header-pending flag, and the per-channel LMS states. -/
structure DecState where
  samples : Option Nat
  header : Bool
  lms : List QoaLmsState
deriving DecidableEq, Repr

/-- Frame decoding (`Decoder::decode_frame`, src/decoder.rs:100-170).
Returns `(continue, state, remaining source, per-channel blocks)`:
`.ok (false, ...)` is clean termination, `.error` a decode failure. On
the first call the file header is read; a zero declared sample count
selects streaming mode (`samples` stays `None`). In fixed mode an
exhausted sample count stops cleanly before reading. At the frame
header, end of stream is clean termination in streaming mode and an
`eof` error in fixed mode. The PCM sink is modelled as the returned
block list (its `set_descriptor` and `write` never fail here). -/
def decode_frame (st : DecState) (src : List Nat) :
    Except DecError (Bool × DecState × List Nat × List (List Int)) :=
  match (if st.header then
           match dec_file_header src with
           | .error e => .error e
           | .ok (hs, src1) =>
             .ok (hs, hs == 0, if hs == 0 then st.samples else some hs, src1)
         else
           .ok (st.samples.getD 0, st.samples.isNone, st.samples, src) :
         Except DecError (Nat × Bool × Option Nat × List Nat)) with
  | .error e => .error e
  | .ok (samples, streaming, samples1, src1) =>
    if samples == 0 && !streaming then
      .ok (false, ⟨samples1, false, st.lms⟩, src1, [])
    else
      match dec_frame_header src1 with
      | .error e =>
        if streaming && e == .eof then
          .ok (false, ⟨samples1, false, st.lms⟩, src1, [])
        else .error e
      | .ok (channels, _rate, fsamples, _size, src2) =>
        match dec_lms (resize_with st.lms channels) src2 with
        | .error e => .error e
        | .ok (lms2, src3) =>
          match dec_rows fsamples (stepRange 0 fsamples SLICE_LEN) lms2 src3 with
          | .error e => .error e
          | .ok (lms3, src4, blocks) =>
            .ok (true, ⟨samples1.map (fun s => s - fsamples), false, lms3⟩,
                 src4, blocks)

/-- Rust `u64::from_be_bytes` on eight bytes (`read_long` of the
`Read`-backed stream, src/io.rs:113-119). -/
def u64_from_be_bytes (bs : List Nat) : Nat :=
  bs.foldl (fun acc b => acc * 256 + b) 0

/-- C2. The scalar `div` (src/lib.rs:399) computes `v * RECIP_TABLE[sf]`
in 32-bit arithmetic, so it diverges from the exact 64-bit formula
(which `vec_div`, src/simd.rs:50, implements) on residuals whose product
with the reciprocal exceeds 32 bits: at `v = 40000`, `sf = 0` the 32-bit
product wraps and `div` returns `-25534` where the 64-bit formula
returns `40000`. -/
theorem div_32bit_intermediate_wraps :
    div 40000 0 = -25534 ∧ vec_div 40000 0 = 40000 ∧
    div 40000 0 ≠ vec_div 40000 0 := by decide

/-- C4 counterexample. The claimed exact addition of `±(residual >> 4)`
fails at lane overflow: `update` (src/simd.rs:89) wraps the `i32`
weight, so at `weights[0] = 2^31 - 1`, `residual = 16` the code lane
becomes `-2^31` where the exact sum is `2^31`; `lib_update`
(src/lib.rs:361) wraps the `i16` weight, so at `weights[0] = 32767`,
`residual = 16` the code lane becomes `-32768` where the exact sum is
`32768`; and lib.rs also truncates the delta itself, so at
`residual = 2^20` the cast `(residual >> 4) as i16` is `0` and the
weights do not move at all, where the exact delta is `65536`. -/
theorem lms_update_exact_add_counterexample :
    (update ⟨[0, 0, 0, 0], [2147483647, 0, 0, 0]⟩ 0 16).weights.getD 0 0 =
      -2147483648 ∧
    (2147483647 : Int) + sar 16 4 = 2147483648 ∧
    ((-2147483648 : Int) ≠ 2147483648) ∧
    (lib_update ⟨[0, 0, 0, 0], [32767, 0, 0, 0]⟩ 0 16).weights.getD 0 0 =
      -32768 ∧
    (32767 : Int) + sar 16 4 = 32768 ∧
    ((-32768 : Int) ≠ 32768) ∧
    (lib_update ⟨[0, 0, 0, 0], [0, 0, 0, 0]⟩ 0 1048576).weights = [0, 0, 0, 0] ∧
    sar 1048576 4 = 65536 := by decide

/-- C4 as amended. `update` (src/simd.rs:89) and `lib_update`
(src/lib.rs:361) yield exactly the post-state in which each weight lane
`i` has moved by `±(residual >> 4)` according to the sign of the
pre-shift history lane `i` — the addition wrapping at the lane width
(`i32` for simd.rs; `i16` for lib.rs, whose delta is itself first
truncated to `i16`) — and the history has shifted left by one (index 0
dropped) with the new sample written at index 3; the sign checks use
the history values saved from before the shift. -/
theorem lms_update_wrapping_characterization
    (h0 h1 h2 h3 w0 w1 w2 w3 sample residual : Int) :
    update ⟨[h0, h1, h2, h3], [w0, w1, w2, w3]⟩ sample residual =
      ⟨[h1, h2, h3, sample],
       [wrap32 (w0 + (if h0 < 0 then -(sar residual 4) else sar residual 4)),
        wrap32 (w1 + (if h1 < 0 then -(sar residual 4) else sar residual 4)),
        wrap32 (w2 + (if h2 < 0 then -(sar residual 4) else sar residual 4)),
        wrap32 (w3 + (if h3 < 0 then -(sar residual 4) else sar residual 4))]⟩ ∧
    lib_update ⟨[h0, h1, h2, h3], [w0, w1, w2, w3]⟩ sample residual =
      ⟨[h1, h2, h3, sample],
       [wrap16 (w0 + (if h0 < 0 then -(wrap16 (sar residual 4))
                      else wrap16 (sar residual 4))),
        wrap16 (w1 + (if h1 < 0 then -(wrap16 (sar residual 4))
                      else wrap16 (sar residual 4))),
        wrap16 (w2 + (if h2 < 0 then -(wrap16 (sar residual 4))
                      else wrap16 (sar residual 4))),
        wrap16 (w3 + (if h3 < 0 then -(wrap16 (sar residual 4))
                      else wrap16 (sar residual 4)))]⟩ :=
  ⟨rfl, rfl⟩

/-- C5. The strided range `enc_slice` reads for channel `chn = 1` of a
two-channel, 40-sample buffer starts at 0 instead of `chn`: it visits
the even interleaved indices 0, 2, ..., 40 — the samples of channel 0,
plus index 40 which is out of bounds for the 40-sample buffer — instead
of the odd indices 1, 3, ..., 39 of channel 1 that `LinearScaler::scale`
and `enc_frame` visit. -/
theorem enc_slice_rng_reads_wrong_channel :
    enc_slice_rng 20 2 1 =
      [0, 2, 4, 6, 8, 10, 12, 14, 16, 18, 20,
       22, 24, 26, 28, 30, 32, 34, 36, 38, 40] ∧
    scale_rng 20 2 1 =
      [1, 3, 5, 7, 9, 11, 13, 15, 17, 19,
       21, 23, 25, 27, 29, 31, 33, 35, 37, 39] ∧
    enc_slice_rng 20 2 1 ≠ scale_rng 20 2 1 := by decide

/-- Accumulated error stays nonnegative along the inner loop, so against
the sentinel `best_error = -1` the loop breaks at the first sample. -/
lemma sliceErr_nonneg (samples : List Int) (si sf : Nat) (lms : QoaLmsState) :
    0 ≤ sliceErr samples si sf lms := mul_self_nonneg _

lemma scaleSearchInner_fst_nonneg (samples : List Int) (sf : Nat)
    (idx : List Nat) (st : Int × Nat × QoaLmsState) (h : 0 ≤ st.1) :
    0 ≤ (scaleSearchInner samples sf (-1) idx st).1 := by
  cases idx with
  | nil => exact h
  | cons si rest =>
    have hsq := sliceErr_nonneg samples si sf st.2.2
    rw [scaleSearchInner, if_pos (by linarith)]
    exact add_nonneg h hsq

/-- The scale-factor search of `enc_slice` and `enc_frame` never
accepts a candidate: `best_error` starts at the signed value `-1`,
every candidate's accumulated error is nonnegative, and the acceptance
test demands `cur_err < best_error`. -/
lemma scaleSearch_eq_sentinel (samples : List Int) (idx : List Nat)
    (lms0 : QoaLmsState) : scaleSearch samples idx lms0 = (-1, 0, lmsDefault) := by
  unfold scaleSearch
  have key : ∀ (l : List Nat),
      l.foldl
        (fun acc sf =>
          let r := scaleSearchInner samples sf acc.1 idx (0, sf, lms0)
          if r.1 < acc.1 then r else acc)
        ((-1 : Int), (0 : Nat), lmsDefault) = (-1, 0, lmsDefault) := by
    intro l
    induction l with
    | nil => rfl
    | cons sf rest ih =>
      have hr := scaleSearchInner_fst_nonneg samples sf idx (0, sf, lms0)
        (le_refl 0)
      simp only [List.foldl_cons]
      rw [if_neg (by intro hlt; exact absurd (lt_of_le_of_lt hr hlt) (by norm_num))]
      exact ih
  exact key (List.range 16)

set_option maxRecDepth 8000 in
/-- C1. The scale-factor search inlined in `enc_slice`
(src/encoder.rs:301-335) and `enc_frame` (src/lib.rs:431-466)
initializes `best_error` to `-1` as a signed 64-bit value (the reference
codec uses the unsigned maximum), so the inner loop's
`cur_err > best_error` break fires at the first sample of every
candidate and `cur_err < best_error` never holds: for every window, LMS
state and channel layout the emitted slice word is 0 and the caller's
LMS state is reset to the default, instead of the minimum-error
candidate's word and state. The slice scaler proper,
`LinearScaler::scale`, returns a different (candidate) result on the
window of twenty samples of value 100. -/
theorem enc_slice_selects_no_candidate :
    (∀ (samples : List Int) (cc chn : Nat) (lms0 : QoaLmsState),
        enc_slice_channel samples cc chn lms0 = (0, lmsDefault)) ∧
    scale (List.replicate 20 100) lmsDefault 0 1 ≠ (0, lmsDefault) := by
  constructor
  · intro samples cc chn lms0
    simp only [enc_slice_channel]
    rw [scaleSearch_eq_sentinel]
    simp
  · decide

/-- C6. `enc` (src/lib.rs:493-497) builds its per-channel LMS vector
with `Vec::with_capacity(channel_count)` and then `fill`, which leaves
the vector empty for every configured channel count; `enc_frame`
therefore emits a frame whose channel-count byte is
`lms_states.len() = 0` and which contains zero serialized LMS states
and zero slice words. For the configured channel count 1, a rate of
44100 and twenty zero samples, the whole frame is the 8 header bytes
with first byte 0, not 1, and no 16-byte LMS prelude follows. -/
theorem enc_frame_emits_no_lms_states :
    (∀ n, enc_lms_init n = []) ∧
    enc_frame (List.replicate 20 0) 44100 (enc_lms_init 1) =
      ([0, 0, 172, 68, 0, 20, 0, 0], []) :=
  ⟨fun _ => rfl, by decide⟩

/-- C10. `Pcm16Reader::read_frame` reads into the empty byte vector
produced by `Vec::with_capacity`, so zero bytes are consumed, the
collected sample vector is empty, and the final `copy_from_slice` into
any non-empty output buffer panics; no samples are ever delivered. -/
theorem read_frame_always_panics (source : List Nat) (bufLen : Nat)
    (h : 0 < bufLen) : read_frame source bufLen = none := by
  simp only [read_frame, vec_with_capacity_u8, array_windows2]
  rw [if_neg (by simpa using by omega)]

/-- Witness for C10: a one-sample output buffer panics. -/
theorem read_frame_always_panics_witness :
    0 < 1 ∧ read_frame [] 1 = none :=
  ⟨by decide, read_frame_always_panics [] 1 (by decide)⟩

/-- Masking with 7 extracts the low three bits. -/
lemma land_seven (x : Nat) : x &&& 7 = x % 8 := by
  have h : (7 : Nat) = 2 ^ 3 - 1 := rfl
  rw [h, Nat.and_pow_two_sub_one_eq_mod]

/-- Bitwise or of values occupying disjoint bit ranges is addition. -/
lemma or_eq_add (a b k : Nat) (ha : a % 2 ^ k = 0) (hb : b < 2 ^ k) :
    a ||| b = a + b := by
  obtain ⟨c, hc⟩ := Nat.dvd_of_mod_eq_zero ha
  subst hc
  apply Nat.eq_of_testBit_eq
  intro j
  rw [Nat.testBit_or]
  rcases Nat.lt_or_ge j k with hj | hj
  · have haj : (2 ^ k * c).testBit j = false := by
      have hmod := Nat.testBit_mod_two_pow (2 ^ k * c) k j
      rw [Nat.mul_mod_right] at hmod
      simp [hj] at hmod
      exact hmod
    have hab : (2 ^ k * c + b).testBit j = b.testBit j := by
      have hm : (2 ^ k * c + b) % 2 ^ k = b := by
        rw [Nat.add_comm, Nat.add_mul_mod_self_left, Nat.mod_eq_of_lt hb]
      have h1 := Nat.testBit_mod_two_pow (2 ^ k * c + b) k j
      rw [hm] at h1
      simp [hj] at h1
      exact h1.symm
    rw [haj, hab, Bool.false_or]
  · have hbj : b.testBit j = false :=
      Nat.testBit_lt_two_pow
        (Nat.lt_of_lt_of_le hb (Nat.pow_le_pow_right (by norm_num) hj))
    have hdiv : (2 ^ k * c + b) / 2 ^ k = c := by
      rw [Nat.mul_add_div (Nat.two_pow_pos k)]
      rw [Nat.div_eq_of_lt hb, Nat.add_zero]
    have haj : (2 ^ k * c).testBit j = ((2 ^ k * c) >>> k).testBit (j - k) := by
      rw [Nat.testBit_shiftRight]
      congr 1
      omega
    have habj : (2 ^ k * c + b).testBit j
        = ((2 ^ k * c + b) >>> k).testBit (j - k) := by
      rw [Nat.testBit_shiftRight]
      congr 1
      omega
    rw [haj, habj, hbj, Bool.or_false]
    rw [Nat.shiftRight_eq_div_pow, Nat.shiftRight_eq_div_pow, hdiv,
        Nat.mul_div_cancel_left c (Nat.two_pow_pos k)]

/-- Depositing a three-bit field below the occupied bits of the
accumulator is addition. -/
lemma or_mod8_pow (a x e : Nat) (ha : a % 2 ^ (e + 3) = 0) :
    a ||| x % 8 * 2 ^ e = a + x % 8 * 2 ^ e := by
  apply or_eq_add _ _ (e + 3) ha
  have hx : x % 8 < 8 := Nat.mod_lt _ (by norm_num)
  calc x % 8 * 2 ^ e < 8 * 2 ^ e := by
        exact (Nat.mul_lt_mul_right (Nat.two_pow_pos e)).mpr hx
    _ = 2 ^ (e + 3) := by rw [pow_add]; ring

set_option maxRecDepth 4000 in
set_option maxHeartbeats 2000000 in
/-- C9. Slice round-trip: for every `quant` in [0, 15] and residuals in
[0, 7], packing with `QoaSlice::pack` (src/lib.rs:163) then unpacking
with `QoaSlice::unpack` (src/decoder.rs:235) recovers the original
`quant` and all twenty residuals. -/
theorem pack_unpack_roundtrip
    (q r0 r1 r2 r3 r4 r5 r6 r7 r8 r9 r10 r11 r12 r13 r14 r15 r16 r17 r18 r19 : Nat)
    (hq : q < 16)
    (h0 : r0 < 8) (h1 : r1 < 8) (h2 : r2 < 8) (h3 : r3 < 8) (h4 : r4 < 8)
    (h5 : r5 < 8) (h6 : r6 < 8) (h7 : r7 < 8) (h8 : r8 < 8) (h9 : r9 < 8)
    (h10 : r10 < 8) (h11 : r11 < 8) (h12 : r12 < 8) (h13 : r13 < 8)
    (h14 : r14 < 8) (h15 : r15 < 8) (h16 : r16 < 8) (h17 : r17 < 8)
    (h18 : r18 < 8) (h19 : r19 < 8) :
    unpack (pack q [r0, r1, r2, r3, r4, r5, r6, r7, r8, r9, r10, r11, r12,
                    r13, r14, r15, r16, r17, r18, r19]) =
      (q, [r0, r1, r2, r3, r4, r5, r6, r7, r8, r9, r10, r11, r12, r13, r14,
           r15, r16, r17, r18, r19]) := by
  have hpack : pack q [r0, r1, r2, r3, r4, r5, r6, r7, r8, r9, r10, r11, r12,
      r13, r14, r15, r16, r17, r18, r19] =
      ((((((((((((((((((((((q % 256) <<< 60) % 2 ^ 64
        ||| (r0 &&& 7) <<< 57) ||| (r1 &&& 7) <<< 54) ||| (r2 &&& 7) <<< 51)
        ||| (r3 &&& 7) <<< 48) ||| (r4 &&& 7) <<< 45) ||| (r5 &&& 7) <<< 42)
        ||| (r6 &&& 7) <<< 39) ||| (r7 &&& 7) <<< 36) ||| (r8 &&& 7) <<< 33)
        ||| (r9 &&& 7) <<< 30) ||| (r10 &&& 7) <<< 27) ||| (r11 &&& 7) <<< 24)
        ||| (r12 &&& 7) <<< 21) ||| (r13 &&& 7) <<< 18) ||| (r14 &&& 7) <<< 15)
        ||| (r15 &&& 7) <<< 12) ||| (r16 &&& 7) <<< 9) ||| (r17 &&& 7) <<< 6)
        ||| (r18 &&& 7) <<< 3) ||| (r19 &&& 7) <<< 0) := by
    unfold pack
    rw [show List.range 20 =
      [0,1,2,3,4,5,6,7,8,9,10,11,12,13,14,15,16,17,18,19] from rfl]
    simp only [List.foldl_cons, List.foldl_nil]
    norm_num [List.getD]
  rw [hpack]
  simp (disch := omega) only [land_seven, Nat.shiftLeft_eq, or_mod8_pow]
  simp only [unpack, unpackAux, Nat.shiftRight_eq_div_pow, land_seven,
    Prod.mk.injEq, List.cons.injEq, and_true]
  simp only [Nat.div_div_eq_div_mul]
  norm_num
  omega

/-- Witness for C9 at the repository's own test vector shape
(src/decoder.rs:252): quant 9, residuals cycling 1..7. -/
theorem pack_unpack_roundtrip_witness :
    (9 < 16 ∧ 1 < 8 ∧ 7 < 8) ∧
    unpack (pack 9 [1, 2, 3, 4, 5, 6, 7, 1, 2, 3, 4, 5, 6, 7, 1, 2, 3, 4, 5, 6]) =
      (9, [1, 2, 3, 4, 5, 6, 7, 1, 2, 3, 4, 5, 6, 7, 1, 2, 3, 4, 5, 6]) :=
  ⟨⟨by decide, by decide, by decide⟩,
   pack_unpack_roundtrip 9 1 2 3 4 5 6 7 1 2 3 4 5 6 7 1 2 3 4 5 6
     (by decide) (by decide) (by decide) (by decide) (by decide) (by decide)
     (by decide) (by decide) (by decide) (by decide) (by decide) (by decide)
     (by decide) (by decide) (by decide) (by decide) (by decide) (by decide)
     (by decide) (by decide) (by decide)⟩

/-- C3. The stream decoder's reconstruction
(`Decoder::decode_frame`, src/decoder.rs:156) computes
`(predicted + dequantized) as i16`, a two's-complement wrap, not the
claimed saturation: for the decodable LMS state with
`history = [0,0,0,32767]`, `weights = [0,0,0,8192]` (prediction 32767)
and the slice entry `quant = 15`, `resid = 6` (dequantized 14336), the
decoder writes `-18433` where the claimed clamp to
[-32768, 32767] yields `32767`. -/
theorem dec_sample_wraps_instead_of_clamping :
    (dec_sample 15 6 ⟨[0, 0, 0, 32767], [0, 0, 0, 8192]⟩).1 = -18433 ∧
    iclamp (predict ⟨[0, 0, 0, 32767], [0, 0, 0, 8192]⟩ +
        (DEQUANT_TABLE.getD 15 []).getD 6 0) (-32768) 32767 = 32767 ∧
    ((-18433 : Int) ≠ 32767) := by decide

/-- C7. At a frame-header boundary with the source exhausted,
`Decoder::decode_frame` (src/decoder.rs:100-137) terminates cleanly in
streaming mode (`samples = None`): it returns `false` with no error and
an unchanged state; in fixed mode with a positive remaining sample
count it surfaces the `Eof` error. -/
theorem decode_frame_eof_at_frame_boundary (lms : List QoaLmsState)
    (n : Nat) (hn : 0 < n) :
    decode_frame ⟨none, false, lms⟩ [] =
      .ok (false, ⟨none, false, lms⟩, [], []) ∧
    decode_frame ⟨some n, false, lms⟩ [] = .error .eof := by
  refine ⟨rfl, ?_⟩
  have h0 : (n == 0) = false := by simp [Nat.pos_iff_ne_zero.mp hn]
  simp [decode_frame, dec_frame_header, read_long, h0]

/-- Witness for C7 at one remaining sample and no channel states. -/
theorem decode_frame_eof_at_frame_boundary_witness :
    0 < 1 ∧
    (decode_frame ⟨none, false, []⟩ [] =
        .ok (false, ⟨none, false, []⟩, [], []) ∧
     decode_frame ⟨some 1, false, []⟩ [] = .error .eof) :=
  ⟨by decide, decode_frame_eof_at_frame_boundary [] 1 (by decide)⟩

/-- C8. `dec_file_header` (src/decoder.rs:192) rejects exactly the
streams whose first word does not carry the magic in its upper 32 bits,
and the `UnknownMagic` payload is exactly the first four bytes read;
otherwise it returns the declared sample count from the lower 32 bits. -/
theorem dec_file_header_checks_magic
    (b0 b1 b2 b3 b4 b5 b6 b7 : Nat) (ws : List Nat)
    (hb0 : b0 < 256) (hb1 : b1 < 256) (hb2 : b2 < 256) (hb3 : b3 < 256)
    (hb4 : b4 < 256) (hb5 : b5 < 256) (hb6 : b6 < 256) (hb7 : b7 < 256) :
    (¬(b0 = 0x71 ∧ b1 = 0x6f ∧ b2 = 0x61 ∧ b3 = 0x66) →
      dec_file_header (u64_from_be_bytes [b0, b1, b2, b3, b4, b5, b6, b7] :: ws) =
        .error (.unknownMagic [b0, b1, b2, b3])) ∧
    ((b0 = 0x71 ∧ b1 = 0x6f ∧ b2 = 0x61 ∧ b3 = 0x66) →
      dec_file_header (u64_from_be_bytes [b0, b1, b2, b3, b4, b5, b6, b7] :: ws) =
        .ok (b4 * 2 ^ 24 + b5 * 2 ^ 16 + b6 * 2 ^ 8 + b7, ws)) := by
  have hv : u64_from_be_bytes [b0, b1, b2, b3, b4, b5, b6, b7]
      = b0 * 2 ^ 56 + b1 * 2 ^ 48 + b2 * 2 ^ 40 + b3 * 2 ^ 32
        + b4 * 2 ^ 24 + b5 * 2 ^ 16 + b6 * 2 ^ 8 + b7 := by
    simp only [u64_from_be_bytes, List.foldl_cons, List.foldl_nil]
    ring
  have hmagic :
      (u64_from_be_bytes [b0, b1, b2, b3, b4, b5, b6, b7] >>> 32) % 2 ^ 32
        = b0 * 2 ^ 24 + b1 * 2 ^ 16 + b2 * 2 ^ 8 + b3 := by
    rw [hv, Nat.shiftRight_eq_div_pow]
    omega
  have hlow : u64_from_be_bytes [b0, b1, b2, b3, b4, b5, b6, b7] % 2 ^ 32
      = b4 * 2 ^ 24 + b5 * 2 ^ 16 + b6 * 2 ^ 8 + b7 := by
    rw [hv]; omega
  have hbytes : beBytes (b0 * 2 ^ 24 + b1 * 2 ^ 16 + b2 * 2 ^ 8 + b3) 4
      = [b0, b1, b2, b3] := by
    simp only [beBytes]
    rw [show List.range 4 = [0, 1, 2, 3] from rfl]
    simp only [List.map_cons, List.map_nil, List.cons.injEq, and_true]
    norm_num
    omega
  constructor
  · intro hne
    simp only [dec_file_header, read_long]
    rw [if_pos (by rw [hmagic]; simp only [MAGICN]; omega)]
    rw [hmagic, hbytes]
  · rintro ⟨e0, e1, e2, e3⟩
    subst e0; subst e1; subst e2; subst e3
    simp only [dec_file_header, read_long]
    rw [if_neg (by rw [hmagic]; norm_num [MAGICN])]
    rw [hlow]

/-- Witness for C8: eight zero bytes are rejected with
`UnknownMagic([0,0,0,0])` (scenario S3). -/
theorem dec_file_header_checks_magic_witness :
    (0 : Nat) < 256 ∧
    dec_file_header [u64_from_be_bytes [0, 0, 0, 0, 0, 0, 0, 0]] =
      .error (.unknownMagic [0, 0, 0, 0]) :=
  ⟨by decide,
   (dec_file_header_checks_magic 0 0 0 0 0 0 0 0 []
      (by decide) (by decide) (by decide) (by decide) (by decide) (by decide)
      (by decide) (by decide)).1 (by decide)⟩
